import Mathlib

/-!
Shallow embedding of the CHIP-8 interpreter core (src/chip8/cpu.go).

Machine words are modelled as Nat with explicit reduction modulo 2^8 or
2^16 where the Go code performs uint8 or uint16 arithmetic.  Fixed-size Go
arrays become Lean lists; an array access whose index the Go runtime would
reject (out of bounds, a panic) is modelled by Option: the embedding of a
function that can panic returns none exactly on the panicking inputs.
-/

set_option maxRecDepth 8000

namespace Gochip

/-- Machine state, mirroring struct Chip8 field for field.  The display is
row-major with index y * 64 + x, memory has 4096 bytes, V has 16 registers,
stack has 16 slots, keys has 16 flags. -/
structure Chip8 where
  memory : List Nat
  V : List Nat
  I : Nat
  PC : Nat
  stack : List Nat
  SP : Nat
  delayTimer : Nat
  soundTimer : Nat
  display : List Nat
  keys : List Bool
  drawFlag : Bool
deriving DecidableEq

/-- Read of a Go array cell: none models the out-of-bounds panic. -/
def rd (l : List Nat) (i : Nat) : Option Nat := l.get? i

/-- Write of a Go array cell: none models the out-of-bounds panic.  The
bounds check is phrased through getElem? so that evaluating it only walks
the list up to the written index. -/
def wr (l : List Nat) (i : Nat) (v : Nat) : Option (List Nat) :=
  match l.get? i with
  | none => none
  | some _ => some (l.set i v)

/-- The 80-byte font table loaded at address 0 by the constructor. -/
def fontset : List Nat :=
  [0xF0, 0x90, 0x90, 0x90, 0xF0,
   0x20, 0x60, 0x20, 0x20, 0x70,
   0xF0, 0x10, 0xF0, 0x80, 0xF0,
   0xF0, 0x10, 0xF0, 0x10, 0xF0,
   0x90, 0x90, 0xF0, 0x10, 0x10,
   0xF0, 0x80, 0xF0, 0x10, 0xF0,
   0xF0, 0x80, 0xF0, 0x90, 0xF0,
   0xF0, 0x10, 0x20, 0x40, 0x40,
   0xF0, 0x90, 0xF0, 0x90, 0xF0,
   0xF0, 0x90, 0xF0, 0x10, 0xF0,
   0xF0, 0x90, 0xF0, 0x90, 0x90,
   0xE0, 0x90, 0xE0, 0x90, 0xE0,
   0xF0, 0x80, 0x80, 0x80, 0xF0,
   0xE0, 0x90, 0x90, 0x90, 0xE0,
   0xF0, 0x80, 0xF0, 0x80, 0xF0,
   0xF0, 0x80, 0xF0, 0x80, 0x80]

/-- Go builtin copy into a slice of the destination starting at a given
offset: writes source bytes one by one at increasing indices, stopping (as
List.set does elementwise) at the end of the destination. -/
def copyInto (mem : List Nat) (start : Nat) (rom : List Nat) : List Nat :=
  match rom with
  | [] => mem
  | b :: rest => copyInto (mem.set start b) (start + 1) rest

/-- Constructor New: PC = 0x200, font table copied to address 0, all other
state zeroed. -/
def New : Chip8 :=
  { memory := copyInto (List.replicate 4096 0) 0 fontset
    V := List.replicate 16 0
    I := 0
    PC := 0x200
    stack := List.replicate 16 0
    SP := 0
    delayTimer := 0
    soundTimer := 0
    display := List.replicate 2048 0
    keys := List.replicate 16 false
    drawFlag := false }

/-- Error value of LoadROM. -/
inductive RomError where
  | OversizeRom
deriving DecidableEq

/-- LoadROM: rejects a ROM longer than 4096 - 0x200 = 3584 bytes before
touching any state, otherwise copies it into memory at 0x200.  The returned
state is the receiver after the call; the Option is the returned error. -/
def LoadROM (c : Chip8) (rom : List Nat) : Chip8 × Option RomError :=
  if rom.length > 4096 - 0x200 then (c, some RomError.OversizeRom)
  else ({ c with memory := copyInto c.memory 0x200 rom }, none)

/-- One sprite pixel, the body of the inner column loop of drawSprite:
acc is the pair (display, collision flag accumulator). -/
def drawPixel (sd xPos screenY col : Nat) (acc : List Nat × Nat) : List Nat × Nat :=
  if sd &&& (0x80 >>> col) ≠ 0 then
    let screenX := (xPos + col) % 64
    let pixelIndex := screenY * 64 + screenX
    let p := acc.1.getD pixelIndex 0
    let vf := if p = 1 then 1 else acc.2
    (acc.1.set pixelIndex (p ^^^ 1), vf)
  else acc

/-- One sprite row, columns 0 to 7 in most-significant-bit-first order. -/
def drawRow (disp : List Nat) (vf : Nat) (sd xPos screenY : Nat) : List Nat × Nat :=
  (List.range 8).foldl (fun acc col => drawPixel sd xPos screenY col acc) (disp, vf)

/-- Body of the row loop of drawSprite, structurally recursive on the
number of remaining iterations. -/
def drawRowsGo (mem : List Nat) (I xPos yPos height : Nat) :
    Nat → Nat → List Nat → Nat → Option (List Nat × Nat)
  | 0, _, disp, vf => some (disp, vf)
  | fuel + 1, row, disp, vf =>
    if row < height then
      match rd mem ((I + row) % 65536) with
      | none => none
      | some sd =>
        let acc := drawRow disp vf sd xPos ((yPos + row) % 32)
        drawRowsGo mem I xPos yPos height fuel (row + 1) acc.1 acc.2
    else some (disp, vf)

/-- The row loop of drawSprite: reads each sprite byte at I + row (uint16
addition, panicking when out of memory bounds).  The iteration count
height - row is exactly the number of loop steps left. -/
def drawRows (mem : List Nat) (I xPos yPos height row : Nat)
    (disp : List Nat) (vf : Nat) : Option (List Nat × Nat) :=
  drawRowsGo mem I xPos yPos height (height - row) row disp vf

/-- drawSprite: resets V15 to 0 first, then reads the origin registers
(hence an origin register index of 15 reads the freshly zeroed flag),
wraps the origin modulo 64 and 32, draws height rows, stores the final
collision flag in V15 and sets drawFlag. -/
def drawSprite (c : Chip8) (x y height : Nat) : Option Chip8 :=
  let V1 := c.V.set 15 0
  let xPos := V1.getD x 0 % 64
  let yPos := V1.getD y 0 % 32
  match drawRows c.memory c.I xPos yPos height 0 c.display 0 with
  | none => none
  | some acc =>
    some { c with display := acc.1, V := V1.set 15 acc.2, drawFlag := true }

/-- Body of the key-scan loop of Fx0A, structurally recursive on the
number of remaining indices. -/
def scanKeysGo (keys : List Bool) : Nat → Nat → Option Nat
  | 0, _ => none
  | fuel + 1, i =>
    if i < 16 then
      if keys.getD i false then some i else scanKeysGo keys fuel (i + 1)
    else none

/-- The key-scan loop of Fx0A: indices 0 to 15 in ascending order, stopping
at the first pressed key. -/
def scanKeys (keys : List Bool) (i : Nat) : Option Nat :=
  scanKeysGo keys (16 - i) i

/-- Body of the register-store loop of Fx55, structurally recursive on the
number of remaining registers. -/
def storeRegsGo (V : List Nat) (I x : Nat) : Nat → Nat → List Nat → Option (List Nat)
  | 0, _, mem => some mem
  | fuel + 1, i, mem =>
    if i ≤ x then
      match wr mem ((I + i) % 65536) (V.getD i 0) with
      | none => none
      | some m2 => storeRegsGo V I x fuel (i + 1) m2
    else some mem

/-- The register-store loop of Fx55: memory[I + i] = V[i] for i = 0..x. -/
def storeRegs (V : List Nat) (I x i : Nat) (mem : List Nat) : Option (List Nat) :=
  storeRegsGo V I x (x + 1 - i) i mem

/-- Body of the register-load loop of Fx65, structurally recursive on the
number of remaining registers. -/
def loadRegsGo (mem : List Nat) (I x : Nat) : Nat → Nat → List Nat → Option (List Nat)
  | 0, _, V => some V
  | fuel + 1, i, V =>
    if i ≤ x then
      match rd mem ((I + i) % 65536) with
      | none => none
      | some b => loadRegsGo mem I x fuel (i + 1) (V.set i b)
    else some V

/-- The register-load loop of Fx65: V[i] = memory[I + i] for i = 0..x. -/
def loadRegs (mem : List Nat) (I x i : Nat) (V : List Nat) : Option (List Nat) :=
  loadRegsGo mem I x (x + 1 - i) i V

/-- executeOpcode: the decode-dispatch switch.  rnd is the byte produced by
the random source in the Cxkk branch (the only nondeterministic input).
none models a Go runtime panic on an out-of-bounds array access. -/
def executeOpcode (c : Chip8) (opcode rnd : Nat) : Option Chip8 :=
  let nnn := opcode &&& 0x0FFF
  let n := opcode &&& 0x000F
  let x := (opcode &&& 0x0F00) >>> 8
  let y := (opcode &&& 0x00F0) >>> 4
  let kk := opcode &&& 0x00FF
  if opcode &&& 0xF000 = 0x0000 then
    if opcode = 0x00E0 then
      some { c with display := c.display.map (fun _ => 0), drawFlag := true
                    PC := (c.PC + 2) % 65536 }
    else if opcode = 0x00EE then
      let SP2 := (c.SP + 255) % 256
      match rd c.stack SP2 with
      | none => none
      | some ret => some { c with SP := SP2, PC := (ret + 2) % 65536 }
    else
      some { c with PC := (c.PC + 2) % 65536 }
  else if opcode &&& 0xF000 = 0x1000 then
    some { c with PC := nnn }
  else if opcode &&& 0xF000 = 0x2000 then
    match wr c.stack c.SP c.PC with
    | none => none
    | some st => some { c with stack := st, SP := (c.SP + 1) % 256, PC := nnn }
  else if opcode &&& 0xF000 = 0x3000 then
    if c.V.getD x 0 = kk then some { c with PC := (c.PC + 4) % 65536 }
    else some { c with PC := (c.PC + 2) % 65536 }
  else if opcode &&& 0xF000 = 0x4000 then
    if c.V.getD x 0 ≠ kk then some { c with PC := (c.PC + 4) % 65536 }
    else some { c with PC := (c.PC + 2) % 65536 }
  else if opcode &&& 0xF000 = 0x5000 then
    if c.V.getD x 0 = c.V.getD y 0 then some { c with PC := (c.PC + 4) % 65536 }
    else some { c with PC := (c.PC + 2) % 65536 }
  else if opcode &&& 0xF000 = 0x6000 then
    some { c with V := c.V.set x kk, PC := (c.PC + 2) % 65536 }
  else if opcode &&& 0xF000 = 0x7000 then
    some { c with V := c.V.set x ((c.V.getD x 0 + kk) % 256), PC := (c.PC + 2) % 65536 }
  else if opcode &&& 0xF000 = 0x8000 then
    if opcode &&& 0x000F = 0x0000 then
      some { c with V := c.V.set x (c.V.getD y 0), PC := (c.PC + 2) % 65536 }
    else if opcode &&& 0x000F = 0x0001 then
      some { c with V := c.V.set x (c.V.getD x 0 ||| c.V.getD y 0), PC := (c.PC + 2) % 65536 }
    else if opcode &&& 0x000F = 0x0002 then
      some { c with V := c.V.set x (c.V.getD x 0 &&& c.V.getD y 0), PC := (c.PC + 2) % 65536 }
    else if opcode &&& 0x000F = 0x0003 then
      some { c with V := c.V.set x (c.V.getD x 0 ^^^ c.V.getD y 0), PC := (c.PC + 2) % 65536 }
    else if opcode &&& 0x000F = 0x0004 then
      let sum := (c.V.getD x 0 + c.V.getD y 0) % 65536
      let V1 := c.V.set 15 (if sum > 0xFF then 1 else 0)
      some { c with V := V1.set x (sum % 256), PC := (c.PC + 2) % 65536 }
    else if opcode &&& 0x000F = 0x0005 then
      let V1 := c.V.set 15 0
      let V2 := if V1.getD x 0 > V1.getD y 0 then V1.set 15 1 else V1
      some { c with V := V2.set x ((V2.getD x 0 + 256 - V2.getD y 0 % 256) % 256)
                    PC := (c.PC + 2) % 65536 }
    else if opcode &&& 0x000F = 0x0006 then
      let V1 := c.V.set 15 (c.V.getD x 0 &&& 0x1)
      some { c with V := V1.set x (V1.getD x 0 >>> 1), PC := (c.PC + 2) % 65536 }
    else if opcode &&& 0x000F = 0x0007 then
      let V1 := c.V.set 15 0
      let V2 := if V1.getD y 0 > V1.getD x 0 then V1.set 15 1 else V1
      some { c with V := V2.set x ((V2.getD y 0 + 256 - V2.getD x 0 % 256) % 256)
                    PC := (c.PC + 2) % 65536 }
    else if opcode &&& 0x000F = 0x000E then
      let V1 := c.V.set 15 ((c.V.getD x 0 &&& 0x80) >>> 7)
      some { c with V := V1.set x (V1.getD x 0 * 2 % 256), PC := (c.PC + 2) % 65536 }
    else
      some { c with PC := (c.PC + 2) % 65536 }
  else if opcode &&& 0xF000 = 0x9000 then
    if c.V.getD x 0 ≠ c.V.getD y 0 then some { c with PC := (c.PC + 4) % 65536 }
    else some { c with PC := (c.PC + 2) % 65536 }
  else if opcode &&& 0xF000 = 0xA000 then
    some { c with I := nnn, PC := (c.PC + 2) % 65536 }
  else if opcode &&& 0xF000 = 0xB000 then
    some { c with PC := (nnn + c.V.getD 0 0) % 65536 }
  else if opcode &&& 0xF000 = 0xC000 then
    some { c with V := c.V.set x (rnd % 256 &&& kk), PC := (c.PC + 2) % 65536 }
  else if opcode &&& 0xF000 = 0xD000 then
    match drawSprite c x y n with
    | none => none
    | some c2 => some { c2 with PC := (c2.PC + 2) % 65536 }
  else if opcode &&& 0xF000 = 0xE000 then
    if opcode &&& 0x00FF = 0x009E then
      match c.keys.get? (c.V.getD x 0) with
      | none => none
      | some b =>
        if b then some { c with PC := (c.PC + 4) % 65536 }
        else some { c with PC := (c.PC + 2) % 65536 }
    else if opcode &&& 0x00FF = 0x00A1 then
      match c.keys.get? (c.V.getD x 0) with
      | none => none
      | some b =>
        if ¬ b then some { c with PC := (c.PC + 4) % 65536 }
        else some { c with PC := (c.PC + 2) % 65536 }
    else
      some { c with PC := (c.PC + 2) % 65536 }
  else if opcode &&& 0xF000 = 0xF000 then
    if opcode &&& 0x00FF = 0x0007 then
      some { c with V := c.V.set x c.delayTimer, PC := (c.PC + 2) % 65536 }
    else if opcode &&& 0x00FF = 0x000A then
      match scanKeys c.keys 0 with
      | none => some c
      | some k => some { c with V := c.V.set x k, PC := (c.PC + 2) % 65536 }
    else if opcode &&& 0x00FF = 0x0015 then
      some { c with delayTimer := c.V.getD x 0, PC := (c.PC + 2) % 65536 }
    else if opcode &&& 0x00FF = 0x0018 then
      some { c with soundTimer := c.V.getD x 0, PC := (c.PC + 2) % 65536 }
    else if opcode &&& 0x00FF = 0x001E then
      some { c with I := (c.I + c.V.getD x 0) % 65536, PC := (c.PC + 2) % 65536 }
    else if opcode &&& 0x00FF = 0x0029 then
      some { c with I := c.V.getD x 0 * 5 % 65536, PC := (c.PC + 2) % 65536 }
    else if opcode &&& 0x00FF = 0x0033 then
      let vx := c.V.getD x 0
      match wr c.memory c.I (vx / 100) with
      | none => none
      | some m1 =>
        match wr m1 ((c.I + 1) % 65536) (vx / 10 % 10) with
        | none => none
        | some m2 =>
          match wr m2 ((c.I + 2) % 65536) (vx % 10) with
          | none => none
          | some m3 => some { c with memory := m3, PC := (c.PC + 2) % 65536 }
    else if opcode &&& 0x00FF = 0x0055 then
      match storeRegs c.V c.I x 0 c.memory with
      | none => none
      | some m2 => some { c with memory := m2, PC := (c.PC + 2) % 65536 }
    else if opcode &&& 0x00FF = 0x0065 then
      match loadRegs c.memory c.I x 0 c.V with
      | none => none
      | some V2 => some { c with V := V2, PC := (c.PC + 2) % 65536 }
    else
      some { c with PC := (c.PC + 2) % 65536 }
  else
    some { c with PC := (c.PC + 2) % 65536 }

/-- The timer-update tail of EmulateCycle: each timer is decremented when
nonzero, otherwise left alone. -/
def tickTimers (c : Chip8) : Chip8 :=
  { c with
    delayTimer := if c.delayTimer > 0 then c.delayTimer - 1 else c.delayTimer
    soundTimer := if c.soundTimer > 0 then c.soundTimer - 1 else c.soundTimer }

/-- EmulateCycle: big-endian two-byte fetch at PC, execute, then tick the
timers. -/
def EmulateCycle (c : Chip8) (rnd : Nat) : Option Chip8 :=
  match rd c.memory c.PC with
  | none => none
  | some hi =>
    match rd c.memory ((c.PC + 1) % 65536) with
    | none => none
    | some lo =>
      match executeOpcode c ((hi <<< 8) ||| lo) rnd with
      | none => none
      | some c2 => some (tickTimers c2)

/-- SetKey: indices 16 and above are silently ignored. -/
def SetKey (c : Chip8) (key : Nat) (pressed : Bool) : Chip8 :=
  if key < 16 then { c with keys := c.keys.set key pressed } else c

/-- Well-formed states: the list fields have the lengths of the fixed-size
Go arrays and every component respects its Go integer type (uint8 memory
bytes and registers, uint16 index register, program counter and stack
entries, uint8 stack pointer). -/
def WF (c : Chip8) : Prop :=
  c.memory.length = 4096 ∧ c.V.length = 16 ∧ c.stack.length = 16 ∧
  c.display.length = 2048 ∧ c.keys.length = 16 ∧
  (∀ b ∈ c.memory, b < 256) ∧ (∀ v ∈ c.V, v < 256) ∧
  c.I < 65536 ∧ c.PC < 65536 ∧ c.SP < 256

instance (c : Chip8) : Decidable (WF c) := by
  unfold WF; infer_instance

/-! ## Helper lemmas about list access -/

theorem getD_set_self (l : List Nat) (i v : Nat) (h : i < l.length) :
    (l.set i v).getD i 0 = v := by
  simp [List.getD, List.getElem?_set_eq_of_lt v h]

theorem getD_set_ne (l : List Nat) (i j v : Nat) (h : i ≠ j) :
    (l.set i v).getD j 0 = l.getD j 0 := by
  simp [List.getD, List.getElem?_set_ne h]

theorem getD_lt_of_bytes (l : List Nat) (hb : ∀ v ∈ l, v < 256) (i : Nat)
    (hi : i < l.length) : l.getD i 0 < 256 := by
  rw [List.getD_eq_getElem l 0 hi]
  exact hb _ (List.getElem_mem hi)

theorem nibble_hi_lt (opcode : Nat) : (opcode &&& 0x0F00) >>> 8 < 16 := by
  have h1 : opcode &&& 0x0F00 ≤ 0x0F00 := Nat.and_le_right
  have h2 : (opcode &&& 0x0F00) >>> 8 = (opcode &&& 0x0F00) / 2 ^ 8 :=
    Nat.shiftRight_eq_div_pow _ 8
  have h3 : (opcode &&& 0x0F00) / 2 ^ 8 ≤ 0x0F00 / 2 ^ 8 := Nat.div_le_div_right h1
  norm_num at h3
  omega

theorem nibble_lo_lt (opcode : Nat) : (opcode &&& 0x00F0) >>> 4 < 16 := by
  have h1 : opcode &&& 0x00F0 ≤ 0x00F0 := Nat.and_le_right
  have h2 : (opcode &&& 0x00F0) >>> 4 = (opcode &&& 0x00F0) / 2 ^ 4 :=
    Nat.shiftRight_eq_div_pow _ 4
  have h3 : (opcode &&& 0x00F0) / 2 ^ 4 ≤ 0x00F0 / 2 ^ 4 := Nat.div_le_div_right h1
  norm_num at h3
  omega

theorem wr_some_iff (l : List Nat) (i v : Nat) (l2 : List Nat) :
    wr l i v = some l2 ↔ i < l.length ∧ l2 = l.set i v := by
  unfold wr
  rw [show l.get? i = l[i]? from List.get?_eq_getElem? l i]
  cases h : l[i]? with
  | none =>
    have := List.getElem?_eq_none_iff.mp h
    simp
    omega
  | some b =>
    have : i < l.length := by
      by_contra hc
      rw [List.getElem?_eq_none_iff.mpr (by omega)] at h
      exact absurd h (by simp)
    simp [this, eq_comm]

theorem wr_length (l : List Nat) (i v : Nat) (l2 : List Nat)
    (h : wr l i v = some l2) : l2.length = l.length := by
  rw [wr_some_iff] at h
  simp [h.2]

theorem wr_getD_below (l : List Nat) (i v : Nat) (l2 : List Nat)
    (h : wr l i v = some l2) (a : Nat) (ha : a ≠ i) : l2.getD a 0 = l.getD a 0 := by
  rw [wr_some_iff] at h
  rw [h.2]
  exact getD_set_ne l i a v (fun hc => ha hc.symm)

/-! ## Helper lemmas about copyInto -/

theorem copyInto_length (rom : List Nat) : ∀ mem start,
    (copyInto mem start rom).length = mem.length := by
  induction rom with
  | nil => intro mem start; rfl
  | cons b rest ih =>
    intro mem start
    rw [copyInto, ih]
    simp

theorem copyInto_getD_low (rom : List Nat) : ∀ mem start a, a < start →
    (copyInto mem start rom).getD a 0 = mem.getD a 0 := by
  induction rom with
  | nil => intro mem start a _; rfl
  | cons b rest ih =>
    intro mem start a ha
    rw [copyInto, ih (mem.set start b) (start + 1) a (by omega)]
    exact getD_set_ne mem start a b (by omega)

theorem copyInto_getD_in (rom : List Nat) : ∀ mem start i, i < rom.length →
    start + rom.length ≤ mem.length →
    (copyInto mem start rom).getD (start + i) 0 = rom.getD i 0 := by
  induction rom with
  | nil => intro mem start i hi _; simp at hi
  | cons b rest ih =>
    intro mem start i hi hlen
    match i with
    | 0 =>
      rw [copyInto]
      have h1 : (copyInto (mem.set start b) (start + 1) rest).getD (start + 0) 0
          = (mem.set start b).getD start 0 := by
        simpa using copyInto_getD_low rest (mem.set start b) (start + 1) start (by omega)
      rw [h1, getD_set_self mem start b (by simp at hlen ⊢; omega)]
      rfl
    | j + 1 =>
      rw [copyInto]
      have h1 : start + (j + 1) = (start + 1) + j := by omega
      rw [h1, ih (mem.set start b) (start + 1) j (by simp at hi; omega)
        (by simp at hlen ⊢; omega)]
      rfl

theorem mem_of_mem_copyInto (rom : List Nat) :
    ∀ (mem : List Nat) (start b : Nat), b ∈ copyInto mem start rom → b ∈ mem ∨ b ∈ rom := by
  induction rom with
  | nil => intro mem start b h; exact Or.inl h
  | cons r rest ih =>
    intro mem start b h
    rcases ih (mem.set start r) (start + 1) b h with h2 | h2
    · rcases List.mem_or_eq_of_mem_set h2 with h3 | h3
      · exact Or.inl h3
      · exact Or.inr (by simp [h3])
    · exact Or.inr (List.mem_cons_of_mem r h2)

theorem fontset_bytes : ∀ b ∈ fontset, b < 256 := by decide

/-- The fresh machine is well formed. -/
theorem WF_New : WF New := by
  refine ⟨?_, ?_, ?_, ?_, ?_, ?_, ?_, ?_, ?_, ?_⟩
  · show (copyInto (List.replicate 4096 0) 0 fontset).length = 4096
    rw [copyInto_length]
    exact List.length_replicate 4096 0
  · exact List.length_replicate 16 0
  · exact List.length_replicate 16 0
  · exact List.length_replicate 2048 0
  · exact List.length_replicate 16 false
  · intro b hb
    rcases mem_of_mem_copyInto fontset (List.replicate 4096 0) 0 b hb with h | h
    · have := List.eq_of_mem_replicate h
      omega
    · exact fontset_bytes b h
  · intro v hv
    have := List.eq_of_mem_replicate hv
    omega
  · show (0:Nat) < 65536
    omega
  · show (0x200:Nat) < 65536
    omega
  · show (0:Nat) < 256
    omega

/-! ## C2: LoadROM size boundary -/

/-- C2: LoadROM succeeds, copying the ROM bytes to memory from 0x200 with no
other state change, exactly when the ROM has at most 3584 bytes; a longer
ROM yields the OversizeRom error with the machine state unchanged.  A
3584-byte ROM loads and a 3585-byte ROM fails. -/
theorem spec_C2 (c : Chip8) (rom : List Nat) :
    (rom.length ≤ 3584 →
      LoadROM c rom = ({ c with memory := copyInto c.memory 0x200 rom }, none) ∧
      (WF c → ∀ i, i < rom.length →
        (LoadROM c rom).1.memory.getD (0x200 + i) 0 = rom.getD i 0) ∧
      (∀ a, a < 0x200 → (LoadROM c rom).1.memory.getD a 0 = c.memory.getD a 0)) ∧
    (rom.length > 3584 → LoadROM c rom = (c, some RomError.OversizeRom)) ∧
    (LoadROM New (List.replicate 3584 7)).2 = none ∧
    LoadROM New (List.replicate 3585 7) = (New, some RomError.OversizeRom) := by
  have hL : rom.length ≤ 3584 →
      LoadROM c rom = ({ c with memory := copyInto c.memory 0x200 rom }, none) := by
    intro hlen
    unfold LoadROM
    norm_num [Nat.not_lt.mpr hlen]
  refine ⟨fun hlen => ⟨hL hlen, ?_, ?_⟩, fun hlen => ?_, ?_, ?_⟩
  · intro hw i hi
    rw [hL hlen]
    exact copyInto_getD_in rom c.memory 0x200 i hi (by rw [hw.1]; omega)
  · intro a ha
    rw [hL hlen]
    exact copyInto_getD_low rom c.memory 0x200 a ha
  · unfold LoadROM
    norm_num
    omega
  · unfold LoadROM
    norm_num
  · unfold LoadROM
    norm_num

/-- Witness for C2 at a concrete three-byte ROM. -/
theorem spec_C2_witness :
    LoadROM New [1, 2, 3] = ({ New with memory := copyInto New.memory 0x200 [1, 2, 3] }, none) :=
  ((spec_C2 New [1, 2, 3]).1 (by norm_num)).1

/-! ## C6: add with carry -/

/-- C6: the 8xy4 handler computes the sum in a domain wider than 8 bits,
stores the flag (1 when the sum exceeds 255, else 0) in register 15, stores
the sum truncated to 8 bits in the destination register, and advances the
program counter by 2; the flag survives when the destination index is not
15.  Concretely, 250 + 10 gives destination 4, flag 1, counter + 2. -/
theorem spec_C6 (c : Chip8) (opcode rnd : Nat) (hw : WF c)
    (h8 : opcode &&& 0xF000 = 0x8000) (h4 : opcode &&& 0x000F = 0x0004)
    (hx15 : (opcode &&& 0x0F00) >>> 8 ≠ 15) :
    ∃ c2, executeOpcode c opcode rnd = some c2 ∧
      c2.V.getD ((opcode &&& 0x0F00) >>> 8) 0
        = (c.V.getD ((opcode &&& 0x0F00) >>> 8) 0
            + c.V.getD ((opcode &&& 0x00F0) >>> 4) 0) % 256 ∧
      c2.V.getD 15 0
        = (if 255 < c.V.getD ((opcode &&& 0x0F00) >>> 8) 0
              + c.V.getD ((opcode &&& 0x00F0) >>> 4) 0 then 1 else 0) ∧
      c2.PC = (c.PC + 2) % 65536 := by
  obtain ⟨hm, hV, hst, hd, hk, hmb, hvb, hI, hPC, hSP⟩ := hw
  have hxlt : (opcode &&& 0x0F00) >>> 8 < 16 := nibble_hi_lt opcode
  have hylt : (opcode &&& 0x00F0) >>> 4 < 16 := nibble_lo_lt opcode
  have hvx : c.V.getD ((opcode &&& 0x0F00) >>> 8) 0 < 256 :=
    getD_lt_of_bytes c.V hvb _ (by omega)
  have hvy : c.V.getD ((opcode &&& 0x00F0) >>> 4) 0 < 256 :=
    getD_lt_of_bytes c.V hvb _ (by omega)
  have hsum : (c.V.getD ((opcode &&& 0x0F00) >>> 8) 0
      + c.V.getD ((opcode &&& 0x00F0) >>> 4) 0) % 65536
      = c.V.getD ((opcode &&& 0x0F00) >>> 8) 0
      + c.V.getD ((opcode &&& 0x00F0) >>> 4) 0 := by
    omega
  simp +decide only [executeOpcode, h8, h4, reduceIte]
  refine ⟨_, rfl, ?_, ?_, rfl⟩
  · rw [getD_set_self _ ((opcode &&& 0x0F00) >>> 8) _ (by simp; omega)]
    omega
  · rw [getD_set_ne _ ((opcode &&& 0x0F00) >>> 8) 15 _ hx15,
      getD_set_self _ 15 _ (by omega), hsum]

/-- Concrete machine for the C6 witness: V0 = 250, V1 = 10. -/
def cW6 : Chip8 := { New with V := ((List.replicate 16 0).set 0 250).set 1 10 }

theorem WF_cW6 : WF cW6 := by
  obtain ⟨h1, h2, h3, h4, h5, h6, h7, h8, h9, h10⟩ := WF_New
  exact ⟨h1, by decide, h3, h4, h5, h6, by decide, h8, h9, h10⟩

/-- Witness for C6: opcode 0x8014 on V0 = 250, V1 = 10 gives V0 = 4, flag 1,
counter advanced by 2. -/
theorem spec_C6_witness :
    ∃ c2, executeOpcode cW6 0x8014 0 = some c2 ∧
      c2.V.getD 0 0 = 4 ∧ c2.V.getD 15 0 = 1 ∧ c2.PC = 0x202 := by
  obtain ⟨c2, h1, h2, h3, h4⟩ :=
    spec_C6 cW6 0x8014 0 WF_cW6 (by decide) (by decide) (by decide)
  rw [(by decide : ((0x8014:Nat) &&& 0x0F00) >>> 8 = 0),
      (by decide : ((0x8014:Nat) &&& 0x00F0) >>> 4 = 1)] at h2 h3
  rw [(by decide : cW6.V.getD 0 0 = 250), (by decide : cW6.V.getD 1 0 = 10)] at h2 h3
  rw [(by decide : cW6.PC = 0x200)] at h4
  rw [(by norm_num : (250 + 10) % 256 = 4)] at h2
  rw [(by norm_num : (if 255 < 250 + 10 then (1:Nat) else 0) = 1)] at h3
  rw [(by norm_num : (0x200 + 2) % 65536 = 0x202)] at h4
  exact ⟨c2, h1, h2, h3, h4⟩

/-! ## C3: call and return round trip -/

/-- C3: with the stack pointer in range, a 2nnn call pushes the current
program counter, increments the stack pointer and jumps to nnn; executing a
00EE return on the resulting state pops that address, restores it and adds
2, ending at the original call-site address plus 2. -/
theorem spec_C3 (c : Chip8) (opcode rnd rnd2 : Nat) (hw : WF c)
    (hsp : c.SP < 16) (hop : opcode &&& 0xF000 = 0x2000) :
    ∃ c1 c2,
      executeOpcode c opcode rnd = some c1 ∧
      c1.stack = c.stack.set c.SP c.PC ∧
      c1.SP = c.SP + 1 ∧
      c1.PC = opcode &&& 0x0FFF ∧
      executeOpcode c1 0x00EE rnd2 = some c2 ∧
      c2.SP = c.SP ∧
      c2.PC = (c.PC + 2) % 65536 ∧
      (c.PC + 2 < 65536 → c2.PC = c.PC + 2) := by
  obtain ⟨hm, hV, hst, hd, hk, hmb, hvb, hI, hPC, hSP⟩ := hw
  have hwr : wr c.stack c.SP c.PC = some (c.stack.set c.SP c.PC) := by
    rw [wr_some_iff]
    exact ⟨by omega, rfl⟩
  have hsp1 : (c.SP + 1) % 256 = c.SP + 1 := by omega
  have hsp2 : ((c.SP + 1) % 256 + 255) % 256 = c.SP := by omega
  have hrd : rd (c.stack.set c.SP c.PC) c.SP = some c.PC := by
    unfold rd
    rw [List.get?_eq_getElem?]
    exact List.getElem?_set_eq_of_lt c.PC (by omega)
  refine ⟨{ c with stack := c.stack.set c.SP c.PC, SP := (c.SP + 1) % 256, PC := opcode &&& 0x0FFF }, { c with stack := c.stack.set c.SP c.PC, SP := c.SP, PC := (c.PC + 2) % 65536 }, ?_, ?_, ?_, ?_, ?_, ?_, ?_, ?_⟩
  · simp +decide only [executeOpcode, hop, hwr, reduceIte]
  · rfl
  · exact hsp1
  · rfl
  · simp +decide only [executeOpcode, reduceIte]
    rw [hsp2, hrd]
  · rfl
  · rfl
  · intro h
    show (c.PC + 2) % 65536 = c.PC + 2
    omega

/-- Witness for C3: a call to 0x400 from the fresh machine followed by a
return ends at 0x202. -/
theorem spec_C3_witness :
    ∃ c1 c2,
      executeOpcode New 0x2400 0 = some c1 ∧
      c1.stack = New.stack.set New.SP New.PC ∧
      c1.SP = New.SP + 1 ∧
      c1.PC = 0x2400 &&& 0x0FFF ∧
      executeOpcode c1 0x00EE 0 = some c2 ∧
      c2.SP = New.SP ∧
      c2.PC = (New.PC + 2) % 65536 ∧
      (New.PC + 2 < 65536 → c2.PC = New.PC + 2) :=
  spec_C3 New 0x2400 0 0 WF_New (by decide) (by decide)

/-! ## Helper lemmas about the key-scan loop -/

theorem scanKeysGo_none_of_all_false (keys : List Bool)
    (hnone : ∀ i, i < 16 → keys.getD i false = false) :
    ∀ fuel j, scanKeysGo keys fuel j = none := by
  intro fuel
  induction fuel with
  | zero => intro j; rfl
  | succ n ih =>
    intro j
    show (if j < 16 then _ else none) = none
    split
    · rename_i hlt
      rw [hnone j hlt]
      simp only [Bool.false_eq_true, if_false]
      exact ih (j + 1)

    · rfl

theorem scanKeys_none_of_all_false (keys : List Bool)
    (hnone : ∀ i, i < 16 → keys.getD i false = false) :
    ∀ j, scanKeys keys j = none :=
  fun j => scanKeysGo_none_of_all_false keys hnone (16 - j) j

theorem scanKeysGo_some_spec (keys : List Bool) :
    ∀ fuel j k, scanKeysGo keys fuel j = some k →
      j ≤ k ∧ k < 16 ∧ keys.getD k false = true ∧
      ∀ i, j ≤ i → i < k → keys.getD i false = false := by
  intro fuel
  induction fuel with
  | zero =>
    intro j k h
    exact absurd h (by simp [scanKeysGo])
  | succ n ih =>
    intro j k h
    rw [show scanKeysGo keys (n + 1) j
        = (if j < 16 then
            (if keys.getD j false then some j else scanKeysGo keys n (j + 1))
          else none) from rfl] at h
    split at h
    · rename_i hlt
      by_cases hkey : keys.getD j false = true
      · rw [hkey] at h
        simp only [if_true] at h
        obtain rfl : j = k := by simpa using h
        exact ⟨le_refl j, hlt, hkey, fun i h1 h2 => by omega⟩
      · rw [Bool.not_eq_true] at hkey
        rw [hkey] at h
        simp only [Bool.false_eq_true, if_false] at h
        obtain ⟨h1, h2, h3, h4⟩ := ih (j + 1) k h
        refine ⟨by omega, h2, h3, fun i hi1 hi2 => ?_⟩
        rcases Nat.eq_or_lt_of_le hi1 with rfl | hlt2
        · exact hkey
        · exact h4 i (by omega) hi2
    · exact absurd h (by simp)

theorem scanKeys_some_spec (keys : List Bool) (j k : Nat)
    (h : scanKeys keys j = some k) :
    j ≤ k ∧ k < 16 ∧ keys.getD k false = true ∧
    ∀ i, j ≤ i → i < k → keys.getD i false = false :=
  scanKeysGo_some_spec keys (16 - j) j k h

theorem scanKeysGo_none_spec (keys : List Bool) :
    ∀ fuel j, 16 ≤ fuel + j → scanKeysGo keys fuel j = none →
      ∀ i, j ≤ i → i < 16 → keys.getD i false = false := by
  intro fuel
  induction fuel with
  | zero =>
    intro j hj h i hi1 hi2
    omega
  | succ n ih =>
    intro j hj h i hi1 hi2
    rw [show scanKeysGo keys (n + 1) j
        = (if j < 16 then
            (if keys.getD j false then some j else scanKeysGo keys n (j + 1))
          else none) from rfl] at h
    split at h
    · rename_i hlt
      by_cases hkey : keys.getD j false = true
      · rw [hkey] at h
        simp at h
      · rw [Bool.not_eq_true] at hkey
        rw [hkey] at h
        simp only [Bool.false_eq_true, if_false] at h
        rcases Nat.eq_or_lt_of_le hi1 with rfl | hlt2
        · exact hkey
        · exact ih (j + 1) (by omega) h i (by omega) hi2
    · omega

theorem scanKeys_none_spec (keys : List Bool) (j : Nat) (hj : j ≤ 16)
    (h : scanKeys keys j = none) :
    ∀ i, j ≤ i → i < 16 → keys.getD i false = false :=
  scanKeysGo_none_spec keys (16 - j) j (by omega) h

/-! ## C7: blocking key wait -/

/-- C7: for an Fx0A opcode, when no key is pressed a step leaves the whole
state (in particular the program counter) unchanged; when a key is pressed
the step stores the lowest pressed key index in the destination register
and advances the counter by 2. -/
theorem spec_C7 (c : Chip8) (opcode rnd : Nat)
    (hopF : opcode &&& 0xF000 = 0xF000) (hopA : opcode &&& 0x00FF = 0x000A) :
    ((∀ i, i < 16 → c.keys.getD i false = false) →
      executeOpcode c opcode rnd = some c) ∧
    (∀ k, scanKeys c.keys 0 = some k →
      executeOpcode c opcode rnd
        = some { c with V := c.V.set ((opcode &&& 0x0F00) >>> 8) k,
                        PC := (c.PC + 2) % 65536 } ∧
      c.keys.getD k false = true ∧
      (∀ j, j < k → c.keys.getD j false = false)) ∧
    ((∃ i, i < 16 ∧ c.keys.getD i false = true) →
      ∃ k, scanKeys c.keys 0 = some k) := by
  refine ⟨?_, ?_, ?_⟩
  · intro hnone
    have hs := scanKeys_none_of_all_false c.keys hnone 0
    simp +decide only [executeOpcode, hopF, hopA, hs, reduceIte]
  · intro k hk
    obtain ⟨h1, h2, h3, h4⟩ := scanKeys_some_spec c.keys 0 k hk
    refine ⟨?_, h3, fun j hj => h4 j (by omega) hj⟩
    simp +decide only [executeOpcode, hopF, hopA, hk, reduceIte]
  · intro ⟨i, hi, hkey⟩
    cases hs : scanKeys c.keys 0 with
    | some k => exact ⟨k, rfl⟩
    | none =>
      have := scanKeys_none_spec c.keys 0 (by omega) hs i (by omega) hi
      rw [this] at hkey
      exact absurd hkey (by simp)

/-- Concrete machine for the C7 witness: keys 5 and 9 pressed. -/
def cW7 : Chip8 :=
  { New with keys := ((List.replicate 16 false).set 5 true).set 9 true }

/-- Witness for C7: with keys 5 and 9 pressed, opcode 0xF30A stores 5 (the
lowest pressed index) in V3 and advances the counter; and on the fresh
machine with no key pressed the state is unchanged. -/
theorem spec_C7_witness :
    executeOpcode New 0xF30A 0 = some New ∧
    executeOpcode cW7 0xF30A 0
      = some { cW7 with V := cW7.V.set ((0xF30A &&& 0x0F00) >>> 8) 5,
                        PC := (cW7.PC + 2) % 65536 } := by
  constructor
  · exact (spec_C7 New 0xF30A 0 (by decide) (by decide)).1 (by decide)
  · exact ((spec_C7 cW7 0xF30A 0 (by decide) (by decide)).2.1 5 (by decide)).1

/-! ## C9: unchecked keypad indexing in Ex9E and ExA1 -/

/-- Concrete machine for the C9 out-of-bounds run: V0 = 16. -/
def cW9 : Chip8 := { New with V := (List.replicate 16 0).set 0 16 }

/-- C9: the skip-if-key handlers index the 16-entry keypad with the full
8-bit register value and no bounds check: execution succeeds whenever the
register value is at most 15, and with register value 16 the access is out
of bounds (the embedded panic case). -/
theorem spec_C9 :
    (∀ (c : Chip8) (opcode rnd : Nat), WF c →
      opcode &&& 0xF000 = 0xE000 →
      opcode &&& 0x00FF = 0x009E ∨ opcode &&& 0x00FF = 0x00A1 →
      c.V.getD ((opcode &&& 0x0F00) >>> 8) 0 ≤ 15 →
      ∃ c2, executeOpcode c opcode rnd = some c2) ∧
    executeOpcode cW9 0xE09E 0 = none ∧
    executeOpcode cW9 0xE0A1 0 = none := by
  refine ⟨?_, by decide, by decide⟩
  intro c opcode rnd hw hopE hop9A hble
  obtain ⟨hm, hV, hst, hd, hk, hmb, hvb, hI, hPC, hSP⟩ := hw
  have hidx : c.V.getD ((opcode &&& 0x0F00) >>> 8) 0 < c.keys.length := by omega
  obtain ⟨b, hb⟩ : ∃ b, c.keys.get? (c.V.getD ((opcode &&& 0x0F00) >>> 8) 0) = some b :=
    ⟨c.keys[c.V.getD ((opcode &&& 0x0F00) >>> 8) 0],
      by rw [List.get?_eq_getElem?]; exact List.getElem?_eq_getElem hidx⟩
  rcases hop9A with hop9 | hopA
  · simp +decide only [executeOpcode, hopE, hop9, hb, reduceIte]
    cases b <;> simp
  · simp +decide only [executeOpcode, hopE, hopA, hb, reduceIte]
    cases b <;> simp

/-- Witness for C9: on the fresh machine (no key pressed, V0 = 0) the Ex9E
handler succeeds. -/
theorem spec_C9_witness :
    ∃ c2, executeOpcode New 0xE09E 0 = some c2 :=
  spec_C9.1 New 0xE09E 0 WF_New (by decide) (Or.inl (by decide)) (by decide)

/-! ## C8: timer decrement floor -/

/-- Concrete machine for the C8 run: delay timer 2, memory all zero so each
fetched opcode 0x0000 is the unknown-opcode branch. -/
def cT0 : Chip8 := { New with delayTimer := 2, memory := List.replicate 4096 0 }

/-- C8: every successful step is the executed operation followed by the
timer tick, and the tick decrements each nonzero timer by exactly one and
leaves a zero timer at zero, never wrapping; concretely a delay timer of 2
reads 1, 0, 0 after three steps that execute no timer-setting opcode. -/
theorem spec_C8 :
    (∀ (c : Chip8) (rnd : Nat) (c2 : Chip8), EmulateCycle c rnd = some c2 →
      ∃ hi lo c1, rd c.memory c.PC = some hi ∧
        rd c.memory ((c.PC + 1) % 65536) = some lo ∧
        executeOpcode c ((hi <<< 8) ||| lo) rnd = some c1 ∧
        c2 = tickTimers c1) ∧
    (∀ c1 : Chip8,
      (tickTimers c1).delayTimer
        = (if 0 < c1.delayTimer then c1.delayTimer - 1 else c1.delayTimer) ∧
      (tickTimers c1).soundTimer
        = (if 0 < c1.soundTimer then c1.soundTimer - 1 else c1.soundTimer) ∧
      (tickTimers c1).delayTimer ≤ c1.delayTimer ∧
      (tickTimers c1).soundTimer ≤ c1.soundTimer ∧
      (c1.delayTimer = 0 → (tickTimers c1).delayTimer = 0) ∧
      (c1.soundTimer = 0 → (tickTimers c1).soundTimer = 0)) ∧
    ((EmulateCycle cT0 0).map (fun s => s.delayTimer) = some 1 ∧
     ((EmulateCycle cT0 0).bind (fun s => EmulateCycle s 0)).map
       (fun s => s.delayTimer) = some 0 ∧
     (((EmulateCycle cT0 0).bind (fun s => EmulateCycle s 0)).bind
       (fun s => EmulateCycle s 0)).map (fun s => s.delayTimer) = some 0) := by
  refine ⟨?_, ?_, by decide, by decide, by decide⟩
  · intro c rnd c2 h
    unfold EmulateCycle at h
    split at h
    · exact absurd h (by simp)
    · rename_i hi hhi
      split at h
      · exact absurd h (by simp)
      · rename_i lo hlo
        split at h
        · exact absurd h (by simp)
        · rename_i c1 hc1
          refine ⟨hi, lo, c1, hhi, hlo, hc1, ?_⟩
          exact (Option.some.inj h).symm
  · intro c1
    unfold tickTimers
    refine ⟨rfl, rfl, ?_, ?_, ?_, ?_⟩ <;> dsimp only [] <;> split <;> omega

/-- Witness for C8: the first concrete step decomposes as fetch of opcode
0x0000, execute, tick. -/
theorem spec_C8_witness :
    ∃ hi lo c1, rd cT0.memory cT0.PC = some hi ∧
      rd cT0.memory ((cT0.PC + 1) % 65536) = some lo ∧
      executeOpcode cT0 ((hi <<< 8) ||| lo) 0 = some c1 ∧
      (EmulateCycle cT0 0).getD New = tickTimers c1 :=
  spec_C8.1 cT0 0 ((EmulateCycle cT0 0).getD New) rfl

/-! ## C10: flag register as destination of the carry and borrow opcodes -/

/-- C10 (amended): when the decoded destination index is 15, add-with-carry
stores the truncated sum in register 15, overwriting the flag written
earlier in the operation; for subtract-with-borrow and reverse-subtract
the flag write zeroes register 15 before the handler reads it back as an
operand, so register 15 ends as (256 - V[y]) mod 256 for 8F_5 and as
V[y] - 1 mod 256 (or 0 when V[y] = 0) for 8F_7, not as the truncated
result of the original operands; in all three cases the flag value itself
is not observable afterward. -/
theorem spec_C10 (c : Chip8) (opcode rnd : Nat) (hw : WF c)
    (h8 : opcode &&& 0xF000 = 0x8000)
    (hx : (opcode &&& 0x0F00) >>> 8 = 15)
    (hy15 : (opcode &&& 0x00F0) >>> 4 ≠ 15) :
    (opcode &&& 0x000F = 0x0004 →
      ∃ c2, executeOpcode c opcode rnd = some c2 ∧
        c2.V.getD 15 0
          = (c.V.getD 15 0 + c.V.getD ((opcode &&& 0x00F0) >>> 4) 0) % 256) ∧
    (opcode &&& 0x000F = 0x0005 →
      ∃ c2, executeOpcode c opcode rnd = some c2 ∧
        c2.V.getD 15 0 = (256 - c.V.getD ((opcode &&& 0x00F0) >>> 4) 0) % 256) ∧
    (opcode &&& 0x000F = 0x0007 →
      ∃ c2, executeOpcode c opcode rnd = some c2 ∧
        c2.V.getD 15 0
          = (c.V.getD ((opcode &&& 0x00F0) >>> 4) 0 + 256
              - (if 0 < c.V.getD ((opcode &&& 0x00F0) >>> 4) 0 then 1 else 0)) % 256) := by
  obtain ⟨hm, hV, hst, hd, hk, hmb, hvb, hI, hPC, hSP⟩ := hw
  have hylt : (opcode &&& 0x00F0) >>> 4 < 16 := nibble_lo_lt opcode
  have hvy : c.V.getD ((opcode &&& 0x00F0) >>> 4) 0 < 256 :=
    getD_lt_of_bytes c.V hvb _ (by omega)
  have hv15 : c.V.getD 15 0 < 256 := getD_lt_of_bytes c.V hvb 15 (by omega)
  have hset15 : ∀ v : Nat, (c.V.set 15 v).getD 15 0 = v :=
    fun v => getD_set_self c.V 15 v (by omega)
  have hsety : ∀ v : Nat, (c.V.set 15 v).getD ((opcode &&& 0x00F0) >>> 4) 0
      = c.V.getD ((opcode &&& 0x00F0) >>> 4) 0 :=
    fun v => getD_set_ne c.V 15 _ v (fun hc => hy15 hc.symm)
  refine ⟨fun h4 => ?_, fun h5 => ?_, fun h7 => ?_⟩
  · simp only [executeOpcode, h8, hx, h4, reduceIte]
    refine ⟨_, rfl, ?_⟩
    rw [List.set_set, hset15]
    omega
  · simp only [executeOpcode, h8, hx, h5, reduceIte]
    refine ⟨_, rfl, ?_⟩
    rw [if_neg (show ¬ ((c.V.set 15 0).getD 15 0
        > (c.V.set 15 0).getD ((opcode &&& 0x00F0) >>> 4) 0) from by
      rw [hset15, hsety]
      omega)]
    rw [List.set_set, hset15, hset15, hsety]
    omega
  · simp only [executeOpcode, h8, hx, h7, reduceIte]
    refine ⟨_, rfl, ?_⟩
    by_cases hpos : 0 < c.V.getD ((opcode &&& 0x00F0) >>> 4) 0
    · rw [if_pos (show (c.V.set 15 0).getD ((opcode &&& 0x00F0) >>> 4) 0
          > (c.V.set 15 0).getD 15 0 from by
        rw [hset15, hsety]
        omega)]
      simp only [List.set_set]
      rw [hset15, hsety 1, hset15, if_pos hpos]
    · rw [if_neg (show ¬ ((c.V.set 15 0).getD ((opcode &&& 0x00F0) >>> 4) 0
          > (c.V.set 15 0).getD 15 0) from by
        rw [hset15, hsety]
        omega)]
      simp only [List.set_set]
      rw [hset15, hsety 0, hset15, if_neg hpos]

/-- Concrete machine refuting C10 as stated: V0 = 3, V15 = 5. -/
def cx10 : Chip8 := { New with V := ((List.replicate 16 0).set 0 3).set 15 5 }

theorem WF_cx10 : WF cx10 := by
  obtain ⟨h1, h2, h3, h4, h5, h6, h7, h8, h9, h10⟩ := WF_New
  exact ⟨h1, by decide, h3, h4, h5, h6, by decide, h8, h9, h10⟩

/-- Counterexample to C10 as stated: executing 0x8F05 (subtract with
borrow into register 15) on V15 = 5, V0 = 3 leaves register 15 holding
253, not the truncated arithmetic result (5 - 3) mod 256 = 2 of the
original operands. -/
theorem spec_C10_counterexample :
    (executeOpcode cx10 0x8F05 0).map (fun s => s.V.getD 15 0) = some 253 ∧
    (5 + 256 - 3) % 256 = 2 ∧
    (executeOpcode cx10 0x8F05 0).map (fun s => s.V.getD 15 0) ≠ some 2 := by
  refine ⟨by decide, by norm_num, by decide⟩

/-- Witness for C10 at the same concrete machine: the amended value for
the 8F05 case is (256 - 3) mod 256 = 253, and for 8F07 it is 3 - 1 = 2. -/
theorem spec_C10_witness :
    (∃ c2, executeOpcode cx10 0x8F05 0 = some c2 ∧
      c2.V.getD 15 0 = (256 - cx10.V.getD ((0x8F05 &&& 0x00F0) >>> 4) 0) % 256) ∧
    (∃ c2, executeOpcode cx10 0x8F07 0 = some c2 ∧
      c2.V.getD 15 0
        = (cx10.V.getD ((0x8F07 &&& 0x00F0) >>> 4) 0 + 256
            - (if 0 < cx10.V.getD ((0x8F07 &&& 0x00F0) >>> 4) 0 then 1 else 0)) % 256) :=
  ⟨(spec_C10 cx10 0x8F05 0 WF_cx10 (by decide) (by decide) (by decide)).2.1 (by decide),
   (spec_C10 cx10 0x8F07 0 WF_cx10 (by decide) (by decide) (by decide)).2.2 (by decide)⟩

/-! ## Helper lemmas about the sprite collision flag -/

theorem drawPixel_vf_of_one (sd xPos sy col : Nat) (acc : List Nat × Nat)
    (h : acc.2 = 1) : (drawPixel sd xPos sy col acc).2 = 1 := by
  unfold drawPixel
  split
  · dsimp only
    split
    · rfl
    · exact h
  · exact h

theorem foldl_drawPixel_vf (sd xPos sy : Nat) :
    ∀ (cols : List Nat) (acc : List Nat × Nat), acc.2 = 1 →
      (cols.foldl (fun a col => drawPixel sd xPos sy col a) acc).2 = 1 := by
  intro cols
  induction cols with
  | nil => intro acc h; exact h
  | cons cHead cTail ih =>
    intro acc h
    exact ih _ (drawPixel_vf_of_one sd xPos sy cHead acc h)

theorem drawRow_vf_of_one (disp : List Nat) (sd xPos sy : Nat) :
    (drawRow disp 1 sd xPos sy).2 = 1 :=
  foldl_drawPixel_vf sd xPos sy (List.range 8) (disp, 1) rfl

theorem drawRowsGo_vf_of_one (mem : List Nat) (I xPos yPos height : Nat) :
    ∀ (fuel row : Nat) (disp : List Nat) (p : List Nat × Nat),
      drawRowsGo mem I xPos yPos height fuel row disp 1 = some p → p.2 = 1 := by
  intro fuel
  induction fuel with
  | zero =>
    intro row disp p h
    obtain rfl := Option.some.inj h
    rfl
  | succ n ih =>
    intro row disp p h
    rw [show drawRowsGo mem I xPos yPos height (n + 1) row disp 1
        = (if row < height then
            (match rd mem ((I + row) % 65536) with
            | none => none
            | some sd =>
              drawRowsGo mem I xPos yPos height n (row + 1)
                (drawRow disp 1 sd xPos ((yPos + row) % 32)).1
                (drawRow disp 1 sd xPos ((yPos + row) % 32)).2)
          else some (disp, 1)) from rfl] at h
    split at h
    · split at h
      · exact absurd h (by simp)
      · rename_i sd hsd
        rw [drawRow_vf_of_one disp sd xPos ((yPos + row) % 32)] at h
        exact ih (row + 1) _ p h
    · obtain rfl := Option.some.inj h
      rfl

/-! ## C4: collision flag semantics of the sprite draw -/

/-- Concrete machine for C4: single-row sprite byte 0x80 at I = 0x300,
origin registers V0 = V1 = 0, with display pixel (0, 0) initially set. -/
def cD1 : Chip8 :=
  { New with memory := (List.replicate 4096 0).set 0x300 0x80, I := 0x300,
             display := (List.replicate 2048 0).set 0 1 }

/-- Concrete machine for C4 and C5: like cD1 but with an all-zero display. -/
def cD0 : Chip8 :=
  { New with memory := (List.replicate 4096 0).set 0x300 0x80, I := 0x300 }

/-- C4: the collision flag accumulator starts at 0 regardless of the prior
V15 value (the draw result is invariant under changing the incoming V15);
once the accumulator is 1 it stays 1 for the rest of the draw; a drawn
sprite bit sets it exactly when the target pixel is already 1.  Concretely,
drawing a one-pixel sprite onto a set pixel clears the pixel and reports
collision 1, drawing again (pixel now 0) sets the pixel and reports 0;
starting instead from a clear pixel the two draws report 0 then 1 and
return the pixel to 0. -/
theorem spec_C4 :
    (∀ (c : Chip8) (x y h w : Nat),
      drawSprite { c with V := c.V.set 15 w } x y h = drawSprite c x y h) ∧
    (∀ (mem : List Nat) (I xPos yPos height row : Nat) (disp : List Nat)
        (p : List Nat × Nat),
      drawRows mem I xPos yPos height row disp 1 = some p → p.2 = 1) ∧
    (∀ (sd xPos sy col : Nat) (disp : List Nat) (vf : Nat),
      (drawPixel sd xPos sy col (disp, vf)).2
        = if sd &&& (0x80 >>> col) ≠ 0 ∧ disp.getD (sy * 64 + (xPos + col) % 64) 0 = 1
          then 1 else vf) ∧
    (cD1.display.getD 0 0 = 1 ∧
     (executeOpcode cD1 0xD011 0).map
       (fun s => (s.display.getD 0 0, s.V.getD 15 0)) = some (0, 1) ∧
     ((executeOpcode cD1 0xD011 0).bind (fun s => executeOpcode s 0xD011 0)).map
       (fun s => (s.display.getD 0 0, s.V.getD 15 0)) = some (1, 0)) ∧
    (cD0.display.getD 0 0 = 0 ∧
     (executeOpcode cD0 0xD011 0).map
       (fun s => (s.display.getD 0 0, s.V.getD 15 0)) = some (1, 0) ∧
     ((executeOpcode cD0 0xD011 0).bind (fun s => executeOpcode s 0xD011 0)).map
       (fun s => (s.display.getD 0 0, s.V.getD 15 0)) = some (0, 1)) := by
  refine ⟨?_, ?_, ?_, ?_, ?_⟩
  · intro c x y h w
    unfold drawSprite
    simp only [List.set_set]
  · intro mem I xPos yPos height row disp p h
    unfold drawRows at h
    exact drawRowsGo_vf_of_one mem I xPos yPos height (height - row) row disp p h
  · intro sd xPos sy col disp vf
    unfold drawPixel
    dsimp only
    by_cases h1 : sd &&& (0x80 >>> col) ≠ 0 <;>
      by_cases h2 : disp.getD (sy * 64 + (xPos + col) % 64) 0 = 1 <;>
      simp [h1, h2]
  · exact ⟨by decide, by decide, by decide⟩
  · exact ⟨by decide, by decide, by decide⟩

/-- Witness for C4: the monotone-flag conjunct applied to a height-zero
draw, whose result keeps the already-set flag 1. -/
theorem spec_C4_witness :
    ((drawRows [] 0 0 0 0 0 [] 1).getD ([], 0)).2 = 1 :=
  spec_C4.2.1 [] 0 0 0 0 0 [] _ rfl

/-! ## C5: sprite wraparound -/

/-- Concrete machine for C5: one sprite row 0xFF at I = 0x300, origin
V0 = 60, V1 = 0. -/
def cW5 : Chip8 :=
  { New with memory := (List.replicate 4096 0).set 0x300 0xFF, I := 0x300,
             V := (List.replicate 16 0).set 0 60 }

/-- C5: sprite bits of value 0 never modify the framebuffer (a zero sprite
bit leaves the accumulator untouched, and an all-zero row leaves the
display unchanged), and a width-8 row drawn at origin x = 60 wraps to
columns 60, 61, 62, 63, 0, 1, 2, 3 in most-significant-bit-first order. -/
theorem spec_C5 :
    (∀ (sd xPos sy col : Nat) (acc : List Nat × Nat),
      sd &&& (0x80 >>> col) = 0 → drawPixel sd xPos sy col acc = acc) ∧
    (∀ (disp : List Nat) (vf xPos sy : Nat), drawRow disp vf 0 xPos sy = (disp, vf)) ∧
    ((executeOpcode cW5 0xD011 0).map (fun s => s.display.take 64)
       = some ([1, 1, 1, 1] ++ List.replicate 56 0 ++ [1, 1, 1, 1]) ∧
     (∀ col, col < 8 →
       (executeOpcode cW5 0xD011 0).map (fun s => s.display.getD ((60 + col) % 64) 0)
         = some 1) ∧
     (executeOpcode cW5 0xD011 0).map
       (fun s => (s.display.getD 4 0, s.display.getD 59 0, s.display.getD 124 0))
         = some (0, 0, 0)) := by
  refine ⟨?_, ?_, by decide, by decide, by decide⟩
  · intro sd xPos sy col acc h
    unfold drawPixel
    rw [if_neg (by simp [h])]
  · intro disp vf xPos sy
    have h8 : List.range 8 = [0, 1, 2, 3, 4, 5, 6, 7] := by rfl
    unfold drawRow
    rw [h8]
    simp +decide [List.foldl, drawPixel]

/-- Witness for C5: a zero sprite byte at any column leaves the
accumulator unchanged. -/
theorem spec_C5_witness :
    drawPixel 0 60 0 3 (List.replicate 2048 0, 0) = (List.replicate 2048 0, 0) :=
  spec_C5.1 0 60 0 3 (List.replicate 2048 0, 0) (by decide)

/-! ## Helper lemmas for memory preservation -/

theorem drawSprite_memory (c : Chip8) (x y n : Nat) (c2 : Chip8)
    (h : drawSprite c x y n = some c2) : c2.memory = c.memory := by
  simp only [drawSprite] at h
  split at h
  · exact absurd h (by simp)
  · obtain rfl := Option.some.inj h
    rfl

theorem storeRegsGo_getD_below (V : List Nat) (Ireg x : Nat) (hlo : 0x200 ≤ Ireg)
    (hhi : Ireg + x ≤ 65535) :
    ∀ (fuel i : Nat) (mem m2 : List Nat),
      storeRegsGo V Ireg x fuel i mem = some m2 →
      ∀ a, a < 0x200 → m2.getD a 0 = mem.getD a 0 := by
  intro fuel
  induction fuel with
  | zero =>
    intro i mem m2 h a ha
    obtain rfl := Option.some.inj h
    rfl
  | succ n ih =>
    intro i mem m2 h a ha
    rw [show storeRegsGo V Ireg x (n + 1) i mem
        = (if i ≤ x then
            (match wr mem ((Ireg + i) % 65536) (V.getD i 0) with
            | none => none
            | some m2b => storeRegsGo V Ireg x n (i + 1) m2b)
          else some mem) from rfl] at h
    split at h
    · rename_i hile
      split at h
      · exact absurd h (by simp)
      · rename_i m1 hm1
        rw [ih (i + 1) m1 m2 h a ha,
          wr_getD_below mem _ _ m1 hm1 a (by omega)]
    · obtain rfl := Option.some.inj h
      rfl

theorem storeRegs_getD_below (V : List Nat) (Ireg x : Nat) (hlo : 0x200 ≤ Ireg)
    (hhi : Ireg + x ≤ 65535) (i : Nat) (mem m2 : List Nat)
    (h : storeRegs V Ireg x i mem = some m2) :
    ∀ a, a < 0x200 → m2.getD a 0 = mem.getD a 0 :=
  storeRegsGo_getD_below V Ireg x hlo hhi (x + 1 - i) i mem m2 h

/-! ## C1: memory below 0x200 across a step -/

set_option maxHeartbeats 1600000 in
/-- C1 (amended): provided the index register points at or above 0x200 and
no uint16 wrap can occur across the at most 16 written offsets (I at most
0xFFF0), no opcode handler modifies any memory byte below 0x200; in
particular the font table is preserved.  Without the precondition on the
index register the BCD-store and register-block-store opcodes do write
below 0x200 (see the counterexample). -/
theorem spec_C1 (c : Chip8) (opcode rnd : Nat) (c2 : Chip8) (hw : WF c)
    (hIlo : 0x200 ≤ c.I) (hIhi : c.I ≤ 0xFFF0)
    (hex : executeOpcode c opcode rnd = some c2) :
    ∀ a, a < 0x200 → c2.memory.getD a 0 = c.memory.getD a 0 := by
  obtain ⟨hm, hV, hst, hd, hk, hmb, hvb, hI, hPC, hSP⟩ := hw
  intro a ha
  have hxlt : (opcode &&& 0x0F00) >>> 8 < 16 := nibble_hi_lt opcode
  unfold executeOpcode at hex
  dsimp only [] at hex
  by_cases h00 : opcode &&& 0xF000 = 0x0000
  · rw [if_pos h00] at hex
    repeat' split at hex
    all_goals try exact Option.noConfusion hex
    all_goals (obtain rfl := Option.some.inj hex; rfl)
  rw [if_neg h00] at hex
  by_cases h10 : opcode &&& 0xF000 = 0x1000
  · rw [if_pos h10] at hex
    obtain rfl := Option.some.inj hex
    rfl
  rw [if_neg h10] at hex
  by_cases h20 : opcode &&& 0xF000 = 0x2000
  · rw [if_pos h20] at hex
    repeat' split at hex
    all_goals try exact Option.noConfusion hex
    all_goals (obtain rfl := Option.some.inj hex; rfl)
  rw [if_neg h20] at hex
  by_cases h30 : opcode &&& 0xF000 = 0x3000
  · rw [if_pos h30] at hex
    repeat' split at hex
    all_goals (obtain rfl := Option.some.inj hex; rfl)
  rw [if_neg h30] at hex
  by_cases h40 : opcode &&& 0xF000 = 0x4000
  · rw [if_pos h40] at hex
    repeat' split at hex
    all_goals (obtain rfl := Option.some.inj hex; rfl)
  rw [if_neg h40] at hex
  by_cases h50 : opcode &&& 0xF000 = 0x5000
  · rw [if_pos h50] at hex
    repeat' split at hex
    all_goals (obtain rfl := Option.some.inj hex; rfl)
  rw [if_neg h50] at hex
  by_cases h60 : opcode &&& 0xF000 = 0x6000
  · rw [if_pos h60] at hex
    obtain rfl := Option.some.inj hex
    rfl
  rw [if_neg h60] at hex
  by_cases h70 : opcode &&& 0xF000 = 0x7000
  · rw [if_pos h70] at hex
    obtain rfl := Option.some.inj hex
    rfl
  rw [if_neg h70] at hex
  by_cases h80 : opcode &&& 0xF000 = 0x8000
  · rw [if_pos h80] at hex
    by_cases s0 : opcode &&& 0x000F = 0x0000
    · rw [if_pos s0] at hex
      obtain rfl := Option.some.inj hex
      rfl
    rw [if_neg s0] at hex
    by_cases s1 : opcode &&& 0x000F = 0x0001
    · rw [if_pos s1] at hex
      obtain rfl := Option.some.inj hex
      rfl
    rw [if_neg s1] at hex
    by_cases s2 : opcode &&& 0x000F = 0x0002
    · rw [if_pos s2] at hex
      obtain rfl := Option.some.inj hex
      rfl
    rw [if_neg s2] at hex
    by_cases s3 : opcode &&& 0x000F = 0x0003
    · rw [if_pos s3] at hex
      obtain rfl := Option.some.inj hex
      rfl
    rw [if_neg s3] at hex
    by_cases s4 : opcode &&& 0x000F = 0x0004
    · rw [if_pos s4] at hex
      obtain rfl := Option.some.inj hex
      rfl
    rw [if_neg s4] at hex
    by_cases s5 : opcode &&& 0x000F = 0x0005
    · rw [if_pos s5] at hex
      obtain rfl := Option.some.inj hex
      rfl
    rw [if_neg s5] at hex
    by_cases s6 : opcode &&& 0x000F = 0x0006
    · rw [if_pos s6] at hex
      obtain rfl := Option.some.inj hex
      rfl
    rw [if_neg s6] at hex
    by_cases s7 : opcode &&& 0x000F = 0x0007
    · rw [if_pos s7] at hex
      obtain rfl := Option.some.inj hex
      rfl
    rw [if_neg s7] at hex
    by_cases sE : opcode &&& 0x000F = 0x000E
    · rw [if_pos sE] at hex
      obtain rfl := Option.some.inj hex
      rfl
    rw [if_neg sE] at hex
    obtain rfl := Option.some.inj hex
    rfl
  rw [if_neg h80] at hex
  by_cases h90 : opcode &&& 0xF000 = 0x9000
  · rw [if_pos h90] at hex
    repeat' split at hex
    all_goals (obtain rfl := Option.some.inj hex; rfl)
  rw [if_neg h90] at hex
  by_cases hA0 : opcode &&& 0xF000 = 0xA000
  · rw [if_pos hA0] at hex
    obtain rfl := Option.some.inj hex
    rfl
  rw [if_neg hA0] at hex
  by_cases hB0 : opcode &&& 0xF000 = 0xB000
  · rw [if_pos hB0] at hex
    obtain rfl := Option.some.inj hex
    rfl
  rw [if_neg hB0] at hex
  by_cases hC0 : opcode &&& 0xF000 = 0xC000
  · rw [if_pos hC0] at hex
    obtain rfl := Option.some.inj hex
    rfl
  rw [if_neg hC0] at hex
  by_cases hD0 : opcode &&& 0xF000 = 0xD000
  · rw [if_pos hD0] at hex
    cases hdraw : drawSprite c ((opcode &&& 0x0F00) >>> 8) ((opcode &&& 0x00F0) >>> 4)
        (opcode &&& 0x000F) with
    | none =>
      rw [hdraw] at hex
      dsimp only [] at hex
      exact Option.noConfusion hex
    | some c3 =>
      rw [hdraw] at hex
      dsimp only [] at hex
      obtain rfl := Option.some.inj hex
      show c3.memory.getD a 0 = c.memory.getD a 0
      rw [drawSprite_memory c _ _ _ c3 hdraw]
  rw [if_neg hD0] at hex
  by_cases hE0 : opcode &&& 0xF000 = 0xE000
  · rw [if_pos hE0] at hex
    by_cases e9 : opcode &&& 0x00FF = 0x009E
    · rw [if_pos e9] at hex
      repeat' split at hex
      all_goals try exact Option.noConfusion hex
      all_goals (obtain rfl := Option.some.inj hex; rfl)
    rw [if_neg e9] at hex
    by_cases eA : opcode &&& 0x00FF = 0x00A1
    · rw [if_pos eA] at hex
      repeat' split at hex
      all_goals try exact Option.noConfusion hex
      all_goals (obtain rfl := Option.some.inj hex; rfl)
    rw [if_neg eA] at hex
    obtain rfl := Option.some.inj hex
    rfl
  rw [if_neg hE0] at hex
  by_cases hF0 : opcode &&& 0xF000 = 0xF000
  · rw [if_pos hF0] at hex
    by_cases f07 : opcode &&& 0x00FF = 0x0007
    · rw [if_pos f07] at hex
      obtain rfl := Option.some.inj hex
      rfl
    rw [if_neg f07] at hex
    by_cases f0A : opcode &&& 0x00FF = 0x000A
    · rw [if_pos f0A] at hex
      cases hsk : scanKeys c.keys 0 with
      | none =>
        rw [hsk] at hex
        dsimp only [] at hex
        obtain rfl := Option.some.inj hex
        rfl
      | some k =>
        rw [hsk] at hex
        dsimp only [] at hex
        obtain rfl := Option.some.inj hex
        rfl
    rw [if_neg f0A] at hex
    by_cases f15 : opcode &&& 0x00FF = 0x0015
    · rw [if_pos f15] at hex
      obtain rfl := Option.some.inj hex
      rfl
    rw [if_neg f15] at hex
    by_cases f18 : opcode &&& 0x00FF = 0x0018
    · rw [if_pos f18] at hex
      obtain rfl := Option.some.inj hex
      rfl
    rw [if_neg f18] at hex
    by_cases f1E : opcode &&& 0x00FF = 0x001E
    · rw [if_pos f1E] at hex
      obtain rfl := Option.some.inj hex
      rfl
    rw [if_neg f1E] at hex
    by_cases f29 : opcode &&& 0x00FF = 0x0029
    · rw [if_pos f29] at hex
      obtain rfl := Option.some.inj hex
      rfl
    rw [if_neg f29] at hex
    by_cases f33 : opcode &&& 0x00FF = 0x0033
    · rw [if_pos f33] at hex
      cases hw1 : wr c.memory c.I (c.V.getD ((opcode &&& 0x0F00) >>> 8) 0 / 100) with
      | none =>
        rw [hw1] at hex
        dsimp only [] at hex
        exact Option.noConfusion hex
      | some m1 =>
        rw [hw1] at hex
        dsimp only [] at hex
        cases hw2 : wr m1 ((c.I + 1) % 65536)
            (c.V.getD ((opcode &&& 0x0F00) >>> 8) 0 / 10 % 10) with
        | none =>
          rw [hw2] at hex
          dsimp only [] at hex
          exact Option.noConfusion hex
        | some m2b =>
          rw [hw2] at hex
          dsimp only [] at hex
          cases hw3 : wr m2b ((c.I + 2) % 65536)
              (c.V.getD ((opcode &&& 0x0F00) >>> 8) 0 % 10) with
          | none =>
            rw [hw3] at hex
            dsimp only [] at hex
            exact Option.noConfusion hex
          | some m3b =>
            rw [hw3] at hex
            dsimp only [] at hex
            obtain rfl := Option.some.inj hex
            show m3b.getD a 0 = c.memory.getD a 0
            rw [wr_getD_below m2b _ _ m3b hw3 a (by omega),
              wr_getD_below m1 _ _ m2b hw2 a (by omega),
              wr_getD_below c.memory _ _ m1 hw1 a (by omega)]
    rw [if_neg f33] at hex
    by_cases f55 : opcode &&& 0x00FF = 0x0055
    · rw [if_pos f55] at hex
      cases hstore : storeRegs c.V c.I ((opcode &&& 0x0F00) >>> 8) 0 c.memory with
      | none =>
        rw [hstore] at hex
        dsimp only [] at hex
        exact Option.noConfusion hex
      | some m2b =>
        rw [hstore] at hex
        dsimp only [] at hex
        obtain rfl := Option.some.inj hex
        show m2b.getD a 0 = c.memory.getD a 0
        exact storeRegs_getD_below c.V c.I _ hIlo (by omega) 0 c.memory m2b hstore a ha
    rw [if_neg f55] at hex
    by_cases f65 : opcode &&& 0x00FF = 0x0065
    · rw [if_pos f65] at hex
      cases hld : loadRegs c.memory c.I ((opcode &&& 0x0F00) >>> 8) 0 c.V with
      | none =>
        rw [hld] at hex
        dsimp only [] at hex
        exact Option.noConfusion hex
      | some V2 =>
        rw [hld] at hex
        dsimp only [] at hex
        obtain rfl := Option.some.inj hex
        rfl
    rw [if_neg f65] at hex
    obtain rfl := Option.some.inj hex
    rfl
  rw [if_neg hF0] at hex
  obtain rfl := Option.some.inj hex
  rfl

/-- Concrete machine refuting C1 as stated: the fresh machine after loading
the two-byte ROM F0 33 (a BCD store executed with index register 0). -/
def cC1 : Chip8 := (LoadROM New [0xF0, 0x33]).1

/-- Counterexample to C1 as stated: one reachable EmulateCycle run (New,
LoadROM of F0 33, one step) overwrites font byte 0 (address 0, below
0x200), changing it from 0xF0 to 0. -/
theorem spec_C1_counterexample :
    cC1.memory.getD 0 0 = 0xF0 ∧
    fontset.getD 0 0 = 0xF0 ∧
    (EmulateCycle cC1 0).map (fun s => s.memory.getD 0 0) = some 0 :=
  ⟨by decide, by decide, by decide⟩

/-- Concrete machine for the C1 witness: fresh machine with I = 0x300. -/
def cWm : Chip8 := { New with I := 0x300 }

theorem WF_cWm : WF cWm := by
  obtain ⟨h1, h2, h3, h4, h5, h6, h7, h8, h9, h10⟩ := WF_New
  exact ⟨h1, h2, h3, h4, h5, h6, h7, by show (0x300:Nat) < 65536; omega, h9, h10⟩

/-- Witness for C1 at the clear-screen opcode on a machine whose index
register is above 0x200: font byte 0 is untouched. -/
theorem spec_C1_witness :
    executeOpcode cWm 0x00E0 0 = some ((executeOpcode cWm 0x00E0 0).getD New) ∧
    ((executeOpcode cWm 0x00E0 0).getD New).memory.getD 0 0 = cWm.memory.getD 0 0 := by
  have h : executeOpcode cWm 0x00E0 0 = some ((executeOpcode cWm 0x00E0 0).getD New) :=
    rfl
  exact ⟨h, spec_C1 cWm 0x00E0 0 _ WF_cWm (by show (0x200:Nat) ≤ 0x300; omega)
    (by show (0x300:Nat) ≤ 0xFFF0; omega) h 0 (by omega)⟩

end Gochip
